import Mathlib

/-!
Verification development for the PR review-loop controller
(`.agent/skills/pr_review/pr_skill.py` and `pr_helper.py`).

The Python code is shallowly embedded: every subprocess / API interaction is
an explicit input value, timestamps are integers (the code only ever
compares them), and Python strings are lists of characters.  Each
definition mirrors one function or code block of the source; doc comments
name the source symbol it embeds.
-/

theorem lenDropWhileLe {α : Type} (p : α → Bool) (l : List α) :
    (l.dropWhile p).length ≤ l.length := by
  induction l with
  | nil => simp
  | cons c t ih =>
    by_cases hc : p c = true <;> simp [List.dropWhile, hc] <;> omega

theorem dropWhileHeadNot {α : Type} (p : α → Bool) (l : List α) (c : α)
    (rest : List α) (h : l.dropWhile p = c :: rest) : p c = false := by
  induction l with
  | nil => simp at h
  | cons d t ih =>
    by_cases hd : p d = true
    · rw [List.dropWhile, hd] at h
      exact ih h
    · rw [List.dropWhile] at h
      simp [hd] at h
      rcases h with ⟨h1, _⟩
      rw [← h1]
      simpa using hd

/-- Whitespace predicate matching the characters Python `str.split()` and
`str.strip()` treat as separators (space, tab, newline, carriage return,
vertical tab, form feed). -/
def pyIsWS (c : Char) : Bool :=
  c = ' ' || c = '\t' || c = '\n' || c = '\r' || c = Char.ofNat 11 || c = Char.ofNat 12

/-- Embedding of Python `str.strip()`: drop whitespace from both ends. -/
def pyStrip (s : List Char) : List Char :=
  ((s.dropWhile pyIsWS).reverse.dropWhile pyIsWS).reverse

/-- Accumulator pass of `pySplit`: collects the current field in reverse
and emits it at each whitespace boundary. -/
def pySplitAux : List Char → List Char → List (List Char)
  | [], acc => if acc = [] then [] else [acc.reverse]
  | c :: rest, acc =>
    if pyIsWS c then
      if acc = [] then pySplitAux rest []
      else acc.reverse :: pySplitAux rest []
    else pySplitAux rest (c :: acc)

/-- Embedding of Python `str.split()` with no argument: split on runs of
whitespace, discarding empty fields. -/
def pySplit (s : List Char) : List (List Char) :=
  pySplitAux s []

/-- Digits-only numeral parser used by `pyInt`: `none` on an empty list or
any non-digit character. -/
def digitsToNat (l : List Char) : Option Nat :=
  if l = [] then none
  else
    l.foldl
      (fun acc c =>
        match acc with
        | none => none
        | some n => if c.isDigit then some (n * 10 + (c.toNat - 48)) else none)
      (some 0)

/-- Embedding of Python `int(str)` for the token strings produced by
`git rev-list --count` (an optional sign followed by digits); a failure
models the `ValueError` the code catches. -/
def pyInt (s : List Char) : Option Int :=
  match s with
  | '-' :: rest => (digitsToNat rest).map (fun n => -(n : Int))
  | '+' :: rest => (digitsToNat rest).map (fun n => (n : Int))
  | l => (digitsToNat l).map (fun n => (n : Int))

/-- The redaction filler used by `ReviewManager._mask_token`. -/
def maskChars : List Char := List.replicate 8 '*'

/-- Embedding of `ReviewManager._mask_token`, i.e. Python
`text.replace(token, "********")`: a left-to-right, non-overlapping
replacement of every occurrence of the token.  An empty token (the
`if not self.token` guard of the source) leaves the text unchanged. -/
def maskToken (t : List Char) : List Char → List Char
  | [] => []
  | c :: s =>
    if h : t ≠ [] ∧ t.isPrefixOf (c :: s) then
      maskChars ++ maskToken t (s.drop (t.length - 1))
    else
      c :: maskToken t s
termination_by s => s.length
decreasing_by
  · simp [List.length_drop]; omega
  · simp

/-- CSI parameter byte of the stripped escape-sequence grammar:
code points 0x30 through 0x3F. -/
def isCsiParam (c : Char) : Bool := 0x30 ≤ c.toNat && c.toNat ≤ 0x3F

/-- CSI intermediate byte: code points 0x20 through 0x2F. -/
def isCsiInter (c : Char) : Bool := 0x20 ≤ c.toNat && c.toNat ≤ 0x2F

/-- CSI final byte: code points 0x40 through 0x7E. -/
def isCsiFinal (c : Char) : Bool := 0x40 ≤ c.toNat && c.toNat ≤ 0x7E

/-- Single-character escape following ESC in the stripped grammar: code
points 0x40 through 0x5A and 0x5C through 0x5F (0x5B is the CSI opener,
handled separately). -/
def isEscSingle (c : Char) : Bool :=
  (0x40 ≤ c.toNat && c.toNat ≤ 0x5A) || (0x5C ≤ c.toNat && c.toNat ≤ 0x5F)

/-- The ESC control character. -/
def escChar : Char := Char.ofNat 0x1B

/-- Attempts to consume one CSI body after the two characters ESC and
opening bracket: greedily parameter bytes, then intermediate bytes, then
exactly one final byte; returns the remaining input on success.  The three
byte classes are disjoint, so this deterministic scan agrees with the
backtracking regex of the source. -/
def csiTail (s : List Char) : Option (List Char) :=
  match (s.dropWhile isCsiParam).dropWhile isCsiInter with
  | [] => none
  | f :: rest => if isCsiFinal f then some rest else none

theorem csiTail_length {s r : List Char} (h : csiTail s = some r) :
    r.length < s.length + 1 := by
  unfold csiTail at h
  have h1 : (s.dropWhile isCsiParam).length ≤ s.length :=
    lenDropWhileLe isCsiParam s
  have h2 : ((s.dropWhile isCsiParam).dropWhile isCsiInter).length
      ≤ (s.dropWhile isCsiParam).length :=
    lenDropWhileLe isCsiInter _
  split at h
  · exact absurd h (by simp)
  · rename_i f rest h3
    split at h
    · rw [h3] at h2
      simp at h2
      have h5 : rest = r := by simpa using h
      have h6 : rest.length = r.length := by rw [h5]
      omega
    · exact absurd h (by simp)

/-- Embedding of the terminal-control stripping in `trigger_review`, the
`re.sub` call removing ESC followed by either one single-escape byte or a
CSI sequence (opening bracket, parameter bytes, intermediate bytes, one
final byte).  The scan is left to right; an unmatched ESC is kept and
scanning resumes at the following character, exactly as `re.sub` does. -/
def stripAnsi : List Char → List Char
  | [] => []
  | c :: s =>
    if c = escChar then
      match h2 : s with
      | '[' :: s2 =>
        match h3 : csiTail s2 with
        | some rest => stripAnsi rest
        | none => c :: stripAnsi s
      | d :: s2 => if isEscSingle d then stripAnsi s2 else c :: stripAnsi s
      | [] => [c]
    else
      c :: stripAnsi s
termination_by s => s.length
decreasing_by
  all_goals try (have h4 := csiTail_length h3; simp_all; omega)
  all_goals simp_all
  all_goals omega

/-- Normalized representation of one observed feedback event, mirroring the
dictionaries built by `check_status` (and the synthetic local-review item of
`trigger_review`).  Fields absent from a given dictionary are `none`. -/
structure FeedbackItem where
  type : String
  user : String
  body : List Char
  state : Option String := none
  createdAt : Option Int := none
  updatedAt : Option Int := none
  path : Option String := none
  line : Option Int := none
deriving DecidableEq, Repr

/-- A formal review decision as exposed by the platform (a PyGithub
`PullRequestReview`): `submitted_at` may be absent. -/
structure Review where
  user : String
  state : String
  body : List Char
  submittedAt : Option Int
deriving DecidableEq, Repr

/-- A general (issue) comment as returned by the platform; `created_at` is
always present on the wire, `updated_at` may be absent in PyGithub. -/
structure RawIssueComment where
  user : String
  body : List Char
  createdAt : Int
  updatedAt : Option Int
deriving DecidableEq, Repr

/-- An inline (location-anchored) review comment as returned by the
platform. -/
structure RawInlineComment where
  user : String
  body : List Char
  path : Option String
  line : Option Int
  createdAt : Option Int
  updatedAt : Option Int
deriving DecidableEq, Repr

/-- The state of the change request as seen by one `check_status` fetch:
the three feedback categories the code retrieves. -/
structure StatusInput where
  issueComments : List RawIssueComment
  inlineComments : List RawInlineComment
  reviews : List Review
deriving DecidableEq, Repr

/-- The single next-step instruction `check_status` (and `trigger_review`)
emits.  Each constructor stands for one distinct instruction string of the
source; constructors carry the values interpolated into that string.  The
two source branches that emit the identical string
"New feedback received. ..." share the constructor
`newFeedbackReceived`. -/
inductive NextStep where
  | changesRequested
  | newCommentsAfterApproval (reviewer : String)
  | validationComplete
  | newFeedbackReceived
  | waitingForApproval (reviewer : String) (current : String)
  | offlineAnalyze
  | analyzeFallback
  | timeoutResponse (reviewer : String)
  | postTriggerDefault
deriving DecidableEq, Repr

/-- The `main_reviewer` sub-dictionary of a status result. -/
structure MainRev where
  user : String
  state : String
deriving DecidableEq, Repr

/-- The structured output dictionary of `check_status` (also used for the
fallback / skipped dictionaries of `trigger_review`; dictionary keys absent
there are modelled by the defaults). -/
structure StatusData where
  statusTag : String := "success"
  items : List FeedbackItem := []
  newItemCount : Nat := 0
  mainReviewer : Option MainRev := none
  nextStep : Option NextStep := none
  pollingTimeout : Bool := false
deriving DecidableEq, Repr

/-- Filter applied by the platform when `check_status` requests issue
comments with `issue.get_comments(since=since_dt)`: the API returns the
comments whose update timestamp is at or after `since`. -/
def keepIssueComment (since : Int) (c : RawIssueComment) : Bool :=
  match c.updatedAt with
  | some u => since ≤ u
  | none => false

/-- Filter `check_status` applies to inline review comments: keep when the
update timestamp exists and is at or after `since` (deliberately `>=`, and
deliberately the update time, per the source comments). -/
def keepInlineComment (since : Int) (c : RawInlineComment) : Bool :=
  match c.updatedAt with
  | some u => since ≤ u
  | none => false

/-- Filter `check_status` applies to formal review decisions: keep when
`submitted_at` exists and is at or after `since`. -/
def keepReview (since : Int) (r : Review) : Bool :=
  match r.submittedAt with
  | some t => since ≤ t
  | none => false

/-- Item built by `check_status` from a kept issue comment. -/
def issueCommentItem (c : RawIssueComment) : FeedbackItem :=
  { type := "issue_comment", user := c.user, body := c.body,
    createdAt := some c.createdAt, updatedAt := c.updatedAt }

/-- Item built by `check_status` from a kept inline comment. -/
def inlineCommentItem (c : RawInlineComment) : FeedbackItem :=
  { type := "inline_comment", user := c.user, body := c.body,
    path := c.path, line := c.line,
    createdAt := c.createdAt, updatedAt := c.updatedAt }

/-- Item built by `check_status` from a kept review decision; only
`created_at` (the submission time) is recorded. -/
def reviewItem (r : Review) : FeedbackItem :=
  { type := "review_summary", user := r.user, state := some r.state,
    body := r.body, createdAt := r.submittedAt }

/-- The fetch part of `check_status` (source lines 793-860): the
`new_feedback` list, appending general comments, then inline comments,
then review decisions, each with its own time filter. -/
def fetchItems (w : StatusInput) (since : Int) : List FeedbackItem :=
  (w.issueComments.filter (keepIssueComment since)).map issueCommentItem
    ++ (w.inlineComments.filter (keepInlineComment since)).map inlineCommentItem
    ++ (w.reviews.filter (keepReview since)).map reviewItem

/-- The `has_changes_requested` boolean of `check_status`: some
time-filtered item is a review decision in state CHANGES_REQUESTED. -/
def hasChangesRequested (items : List FeedbackItem) : Bool :=
  items.any (fun i => i.type == "review_summary" && i.state == some "CHANGES_REQUESTED")

/-- The single reverse-chronological scan of `check_status` over the full
review history: tracks the primary reviewer latest state and the most
recent approval timestamp independently, with the early exit of the
source once both are known.  An APPROVED review whose `submitted_at` is
absent leaves the approval timestamp unset, exactly as the source
assignment of `get_aware_utc_datetime(None)` does. -/
def scanGo (reviewer : String) : List Review → Option String → Option Int → String × Option Int
  | [], st, ap => (st.getD "PENDING", ap)
  | r :: rest, st, ap =>
    if r.user == reviewer then
      let st2 := match st with
        | none => some r.state
        | some s0 => some s0
      let ap2 := match ap with
        | none => if r.state == "APPROVED" then r.submittedAt else none
        | some a => some a
      if ap2.isSome then (st2.getD "PENDING", ap2)
      else scanGo reviewer rest st2 ap2
    else scanGo reviewer rest st ap

/-- The reviewer scan applied as in the source: over `reversed(reviews)`,
starting from state PENDING and no approval timestamp. -/
def scanReviewer (reviews : List Review) (reviewer : String) : String × Option Int :=
  scanGo reviewer reviews.reverse none none

/-- One item test of the `has_new_main_reviewer_comments` loop: the item is
by the primary reviewer, is an issue comment, an inline comment or a
COMMENTED review decision, and its creation time is at or after the most
recent approval (`>=`, to catch same-second comments); items without a
parseable creation time are skipped. -/
def isPostApprovalComment (reviewer : String) (t1 : Int) (i : FeedbackItem) : Bool :=
  i.user == reviewer
    && ((i.type == "issue_comment" || i.type == "inline_comment")
        || (i.type == "review_summary" && i.state == some "COMMENTED"))
    && (match i.createdAt with
        | some c => t1 ≤ c
        | none => false)

/-- The `has_new_main_reviewer_comments` boolean of `check_status`: only
checked when a most-recent-approval timestamp exists. -/
def hasNewComments (items : List FeedbackItem) (reviewer : String) : Option Int → Bool
  | some t1 => items.any (isPostApprovalComment reviewer t1)
  | none => false

/-- The `other_feedback` list of `check_status`: every time-filtered item
that is not an APPROVED review decision by the primary reviewer. -/
def otherFeedback (items : List FeedbackItem) (reviewer : String) : List FeedbackItem :=
  items.filter (fun i =>
    !(i.user == reviewer && i.type == "review_summary" && i.state == some "APPROVED"))

/-- The next-step decision chain of `check_status` (source lines 862-948),
as a function of the time-filtered items, the full review history and the
designated primary reviewer. -/
def classifyNext (items : List FeedbackItem) (reviews : List Review)
    (reviewer : String) : NextStep :=
  let hasCR := hasChangesRequested items
  let scan := scanReviewer reviews reviewer
  let hasNew := hasNewComments items reviewer scan.2
  if hasCR then .changesRequested
  else if hasNew then .newCommentsAfterApproval reviewer
  else if scan.1 == "APPROVED" then
    if otherFeedback items reviewer ≠ [] then .newFeedbackReceived
    else .validationComplete
  else if items ≠ [] then .newFeedbackReceived
  else .waitingForApproval reviewer scan.1

/-- The full `check_status` result for one fetch: items, counts, the main
reviewer state from the history scan, and the next-step instruction. -/
def checkStatus (w : StatusInput) (since : Int) (reviewer : String) : StatusData :=
  let items := fetchItems w since
  { statusTag := "success",
    items := items,
    newItemCount := items.length,
    mainReviewer := some ⟨reviewer, (scanReviewer w.reviews reviewer).1⟩,
    nextStep := some (classifyNext items w.reviews reviewer) }

/-- A raw platform item as `pr_helper.py` sees it: a JSON dictionary of
which only the three timestamp keys drive the filter. -/
structure RawGhItem where
  user : String := ""
  body : List Char := []
  submittedAt : Option Int := none
  updatedAt : Option Int := none
  createdAt : Option Int := none
deriving DecidableEq, Repr

/-- The three category lists fetched by `pr_helper.get_all_feedback`. -/
structure Feedback where
  reviews : List RawGhItem
  inlineComments : List RawGhItem
  issueComments : List RawGhItem
deriving DecidableEq, Repr

/-- The timestamp key `pr_helper.filter_feedback_since` reads from an item:
`item.get('submitted_at') or item.get('updated_at') or item.get('created_at')`
(first present key wins; a missing or unparseable timestamp excludes the
item). -/
def tsKey (i : RawGhItem) : Option Int :=
  match i.submittedAt with
  | some t => some t
  | none =>
    match i.updatedAt with
    | some t => some t
    | none => i.createdAt

/-- The per-item keep test of `pr_helper.filter_feedback_since`:
`item_dt > since_dt`, a strict comparison. -/
def keepHelperItem (since : Int) (i : RawGhItem) : Bool :=
  match tsKey i with
  | some t => since < t
  | none => false

/-- Embedding of `pr_helper.filter_feedback_since` (source lines 82-112):
the new-item list, labelled per category, in the processing order of the
source (reviews, inline comments, general comments). -/
def filterFeedbackSince (fb : Feedback) (since : Int) : List (RawGhItem × String) :=
  (fb.reviews.filter (keepHelperItem since)).map (fun i => (i, "review_summary"))
    ++ (fb.inlineComments.filter (keepHelperItem since)).map (fun i => (i, "inline_comment"))
    ++ (fb.issueComments.filter (keepHelperItem since)).map (fun i => (i, "issue_comment"))

/-- Outcome of one `subprocess.run` call made with `check=True`: normal
completion with captured stdout, a raised `CalledProcessError` (modelled
with the text `str(e)` would carry), or a raised `TimeoutExpired`
(likewise carrying its exception text). -/
inductive RunOutcome where
  | ok (stdout : List Char)
  | exc (excMsg : List Char)
  | timedOut (excMsg : List Char)
deriving DecidableEq, Repr

/-- Outcome of one `subprocess.run` call made with `check=False`: normal
completion with exit code, stdout and stderr, or a raised
`TimeoutExpired`. -/
inductive RawOutcome where
  | done (rc : Int) (stdout : List Char) (stderr : List Char)
  | timedOut (excMsg : List Char)
deriving DecidableEq, Repr

/-- The git subprocess world one verification pass observes, one field per
call site: `git status --porcelain`, the first `git rev-parse HEAD` of
`_verify_clean_git`, `git fetch`, the second `git rev-parse HEAD` of
`_check_local_state`, the upstream probe `git rev-parse @{u}`
(`check=False`), `git rev-list --left-right --count` (`check=False`) and
`git push`. -/
structure GitEnv where
  statusRun : RunOutcome
  branchRun : RunOutcome
  fetchRun : RunOutcome
  branchRun2 : RunOutcome
  upstreamRun : RawOutcome
  revListRun : RawOutcome
  pushRun : RunOutcome
deriving DecidableEq, Repr

/-- The distinct failure messages of the sync verification
(`_verify_clean_git` and `_check_local_state`); each constructor stands
for one distinct message string of the source, carrying the values
interpolated into it.  `gitCheckFailed` carries the already-masked
exception text. -/
inductive SyncErr where
  | dirtyWorkingTree
  | detachedHead
  | gitCheckFailed (msg : List Char)
  | gitCheckTimedOut
  | noUpstream (branch : List Char)
  | unpushedCommits (branch : List Char) (ahead : Int)
  | behindUpstream (branch : List Char) (behind : Int)
  | unexpectedRevListOutput (stdout : List Char)
  | revListParseFailed (stdout : List Char)
  | divergenceCheckFailed (stderr : List Char)
deriving DecidableEq, Repr

/-- Observable side effects of the manager, recorded in order: the start of
a local-state verification, the network `git fetch` inside it, a `git
push`, posting one trigger comment on the change request, one run of the
external review agent, and one fetch-and-classify cycle against the
platform. -/
inductive Effect where
  | syncCheck
  | gitFetch
  | gitPush
  | postComment (body : String)
  | runReviewer
  | fetchClassify
deriving DecidableEq, Repr

/-- Embedding of `ReviewManager._verify_clean_git` (source lines 203-239):
checks the working tree is clean and HEAD is a named branch; on success
returns the stripped branch name.  Subprocess exceptions map to the masked
`Git check failed` message, timeouts to the fixed timeout message. -/
def verifyCleanGit (token : List Char) (env : GitEnv) : Except SyncErr (List Char) :=
  match env.statusRun with
  | .exc m => .error (.gitCheckFailed (maskToken token m))
  | .timedOut _ => .error .gitCheckTimedOut
  | .ok statusOut =>
    if pyStrip statusOut ≠ [] then .error .dirtyWorkingTree
    else
      match env.branchRun with
      | .exc m => .error (.gitCheckFailed (maskToken token m))
      | .timedOut _ => .error .gitCheckTimedOut
      | .ok branchOut =>
        let branch := pyStrip branchOut
        if branch = "HEAD".toList then .error .detachedHead
        else .ok branch

/-- The upstream-synchronization part of `ReviewManager._check_local_state`
(the body of its `try` block): `git fetch`, the branch re-read, the
upstream probe, and the ahead/behind divergence from
`git rev-list --left-right --count @{u}...HEAD` (stdout is `behind ahead`).
In this method every caught subprocess exception, timeouts included, is
surfaced as the masked `Git check failed` message; the nonzero-exit
divergence branch surfaces raw stderr, and the unexpected-output and
parse-failure branches surface raw stdout. -/
def checkUpstreamSync (token : List Char) (env : GitEnv) : Except SyncErr (List Char) :=
  match env.fetchRun with
  | .exc m => .error (.gitCheckFailed (maskToken token m))
  | .timedOut m => .error (.gitCheckFailed (maskToken token m))
  | .ok _ =>
    match env.branchRun2 with
    | .exc m => .error (.gitCheckFailed (maskToken token m))
    | .timedOut m => .error (.gitCheckFailed (maskToken token m))
    | .ok branchOut2 =>
      let branch := pyStrip branchOut2
      match env.upstreamRun with
      | .timedOut m => .error (.gitCheckFailed (maskToken token m))
      | .done rcU _ _ =>
        if rcU ≠ 0 then .error (.noUpstream branch)
        else
          match env.revListRun with
          | .timedOut m => .error (.gitCheckFailed (maskToken token m))
          | .done rcR outR errR =>
            if rcR = 0 then
              match pySplit outR with
              | [p0, p1] =>
                match pyInt p0, pyInt p1 with
                | some behind, some ahead =>
                  if ahead > 0 then .error (.unpushedCommits branch ahead)
                  else if behind > 0 then .error (.behindUpstream branch behind)
                  else .ok "Code is clean and pushed.".toList
                | _, _ => .error (.revListParseFailed (pyStrip outR))
              | _ => .error (.unexpectedRevListOutput (pyStrip outR))
            else .error (.divergenceCheckFailed (pyStrip errR))

/-- Embedding of `ReviewManager._check_local_state` (source lines 241-329)
with its observable actions: local cleanliness first (before any network
call), then the upstream-synchronization block, whose first action is the
network `git fetch`. -/
def checkLocalState (token : List Char) (env : GitEnv) :
    Except SyncErr (List Char) × List Effect :=
  match verifyCleanGit token env with
  | .error e => (.error e, [.syncCheck])
  | .ok _ => (checkUpstreamSync token env, [.syncCheck, .gitFetch])

/-- The distinct failure results of `safe_push`, one constructor per
distinct message string of the source. -/
inductive SafePushErr where
  | notClean (e : SyncErr)
  | noUpstreamPush (branch : List Char)
  | upstreamCheckTimedOut
  | pushFailed (msg : List Char)
deriving DecidableEq, Repr

/-- Embedding of `ReviewManager.safe_push` (source lines 331-401) with its
observable actions: cleanliness and branch via `_verify_clean_git`, a
separate upstream probe, then the push; all push failures (nonzero exit,
timeout) share the masked `Push failed or timed out` message. -/
def safePush (token : List Char) (env : GitEnv) :
    Except SafePushErr (List Char) × List Effect :=
  match verifyCleanGit token env with
  | .error e => (.error (.notClean e), [.syncCheck])
  | .ok branch =>
    match env.upstreamRun with
    | .timedOut _ => (.error .upstreamCheckTimedOut, [.syncCheck])
    | .done rcU _ _ =>
      if rcU ≠ 0 then (.error (.noUpstreamPush branch), [.syncCheck])
      else
        match env.pushRun with
        | .ok _ => (.ok "Push successful.".toList, [.syncCheck, .gitPush])
        | .exc m => (.error (.pushFailed (maskToken token m)), [.syncCheck, .gitPush])
        | .timedOut m => (.error (.pushFailed (maskToken token m)), [.syncCheck, .gitPush])

/-- Result of `_poll_for_main_reviewer`: either resolved with the status
data of the attempt that found new primary-reviewer feedback, or timed out
carrying the last status data seen (none when no attempt ran).  User
interruption is an asynchronous signal and is outside this embedding. -/
inductive PollResult where
  | resolved (s : StatusData)
  | timedOut (last : Option StatusData)
deriving DecidableEq, Repr

/-- The per-attempt resolution test of `_poll_for_main_reviewer`: some item
of the freshly fetched, time-filtered status is authored by the designated
primary reviewer.  The source deliberately does not consult
`main_reviewer.state` here. -/
def mainReviewerHasNewFeedback (s : StatusData) (reviewer : String) : Bool :=
  s.items.any (fun i => i.user == reviewer)

/-- The polling loop of `_poll_for_main_reviewer` (source lines 403-489),
instrumented with the number of fetch attempts it performs: `fetch k`
models the `check_status` result of poll attempt `k` (always filtered
since the trigger time), `remaining` the attempts left. -/
def pollGo (fetch : Nat → StatusData) (reviewer : String) :
    Nat → Nat → Option StatusData → PollResult × Nat
  | _, 0, last => (.timedOut last, 0)
  | attempt, remaining + 1, _ =>
    let s := fetch attempt
    if mainReviewerHasNewFeedback s reviewer then (.resolved s, 1)
    else
      let r := pollGo fetch reviewer (attempt + 1) remaining (some s)
      (r.1, r.2 + 1)

/-- Embedding of `_poll_for_main_reviewer`: attempts run from 1 up to the
configured maximum. -/
def pollForMainReviewer (fetch : Nat → StatusData) (reviewer : String)
    (maxAttempts : Nat) : PollResult × Nat :=
  pollGo fetch reviewer 1 maxAttempts none

/-- Modelled from the spec: the `LoopCheckpoint` record persisted by the
Loop Controller.  The checkpoint/resume machinery of the specification is
not present in the sources under src (only the polling loop it wraps is);
only the field the resume contract constrains is modelled. -/
structure LoopCheckpoint where
  pollAttempt : Nat
deriving DecidableEq, Repr

/-- Modelled from the spec: `RESUME` re-enters the polling loop from a
persisted checkpoint, continuing the attempt counter at the next attempt
rather than resetting it, and capping total attempts at the original
configured maximum. -/
def resumePolling (fetch : Nat → StatusData) (reviewer : String)
    (cp : LoopCheckpoint) (maxAttempts : Nat) : PollResult × Nat :=
  pollGo fetch reviewer (cp.pollAttempt + 1) (maxAttempts - cp.pollAttempt) none

/-- Outcome of the external review-agent `subprocess.run` in
`trigger_review`: completion with exit code and captured streams, the
`TimeoutExpired` branch, or the `FileNotFoundError` branch. -/
inductive ReviewerRun where
  | completed (rc : Int) (stdout : List Char) (stderr : List Char)
  | timedOut
  | notFound
deriving DecidableEq, Repr

/-- The distinct `print_error` exits of `trigger_review`, one constructor
per distinct message; the reviewer-failure constructor carries the masked
captured streams the message embeds. -/
inductive TrigErr where
  | localStateFailed (e : SyncErr)
  | reviewerFailed (rc : Int) (stderrMasked : List Char) (stdoutMasked : List Char)
  | reviewerTimedOut
  | reviewerNotFound
deriving DecidableEq, Repr

/-- The structured success result of `trigger_review`. -/
structure TrigOk where
  message : String
  triggeredBots : List String
  initialStatus : StatusData
  nextStep : NextStep
deriving DecidableEq, Repr

/-- The fixed, ordered marker comments posted in online mode
(`REVIEW_COMMANDS`). -/
def reviewCommands : List String :=
  ["/gemini review", "@coderabbitai review", "@sourcery-ai review",
   "/review", "@ellipsis review this"]

/-- The trigger mode selected by the command line; `--local` and
`--offline` are mutually exclusive there. -/
inductive TriggerMode where
  | onlineMode
  | localMode
  | offlineMode
deriving DecidableEq, Repr

/-- The world one `trigger_review` invocation observes: the git subprocess
world, the token, the review-agent outcome, the wall-clock trigger time,
the platform state for the post-wait local fetch (error models the caught
`GithubException`), the platform state at each online poll attempt, and
the polling configuration. -/
structure TriggerEnv where
  git : GitEnv
  token : List Char
  reviewerRun : ReviewerRun
  now : Int
  reviewer : String
  localStatus : Except Unit StatusInput
  pollWorld : Nat → StatusInput
  maxAttempts : Nat
  waitSeconds : Int

/-- The synthetic feedback item wrapped around the captured review-agent
output in `trigger_review`: terminal control sequences stripped, authored
by the fixed identity, timestamped with the wall clock. -/
def mkLocalReviewItem (isLocal : Bool) (stdout : List Char) (now : Int) : FeedbackItem :=
  { type := if isLocal then "local_review" else "offline_review",
    user := "gemini-cli-review",
    body := stripAnsi stdout,
    createdAt := some now,
    updatedAt := some now }

/-- The fallback status dictionary built when the post-wait GitHub fetch of
local mode raises (`status: success, items: [], next_step: analyze`). -/
def fallbackStatus : StatusData :=
  { statusTag := "success", items := [], nextStep := some .analyzeFallback }

/-- The skipped status dictionary of online mode with `wait_seconds <= 0`. -/
def skippedStatus : StatusData :=
  { statusTag := "skipped" }

/-- Offline branch of `trigger_review` (source lines 503-618): no local
state verification, one bounded review-agent run, and an immediate return
whose complete result is the single synthetic item. -/
def triggerOffline (env : TriggerEnv) : Except TrigErr TrigOk × List Effect :=
  match env.reviewerRun with
  | .timedOut => (.error .reviewerTimedOut, [.runReviewer])
  | .notFound => (.error .reviewerNotFound, [.runReviewer])
  | .completed rc out errOut =>
    if rc ≠ 0 then
      (.error (.reviewerFailed rc (maskToken env.token errOut) (maskToken env.token out)),
       [.runReviewer])
    else
      (.ok
        { message := "Offline review completed locally.",
          triggeredBots := ["/code-review"],
          initialStatus :=
            { statusTag := "success",
              items := [mkLocalReviewItem false out env.now],
              newItemCount := 1,
              mainReviewer := some ⟨"gemini-cli-review", "COMMENTED"⟩,
              nextStep := none },
          nextStep := .offlineAnalyze },
       [.runReviewer])

/-- The post-wait fetch-and-classify of local mode: the `check_status`
result, or the fallback dictionary when the platform call raised. -/
def localFetchStatus (env : TriggerEnv) : StatusData :=
  match env.localStatus with
  | .error _ => fallbackStatus
  | .ok w => checkStatus w env.now env.reviewer

/-- Local branch of `trigger_review`: local-state gate, review-agent run,
fixed wait, one fetch-and-classify cycle against the platform, then the
unconditional override that front-inserts the synthetic item, rewrites the
main reviewer to the synthetic identity in state COMMENTED and rewrites
`next_step` to the generic new-feedback instruction. -/
def triggerLocalMode (env : TriggerEnv) : Except TrigErr TrigOk × List Effect :=
  match checkLocalState env.token env.git with
  | (.error e, tr) => (.error (.localStateFailed e), tr)
  | (.ok _, tr) =>
    match env.reviewerRun with
    | .timedOut => (.error .reviewerTimedOut, tr ++ [.runReviewer])
    | .notFound => (.error .reviewerNotFound, tr ++ [.runReviewer])
    | .completed rc out errOut =>
      if rc ≠ 0 then
        (.error (.reviewerFailed rc (maskToken env.token errOut) (maskToken env.token out)),
         tr ++ [.runReviewer])
      else
        let sd := localFetchStatus env
        let item := mkLocalReviewItem true out env.now
        let sd2 :=
          { sd with
            items := item :: sd.items,
            newItemCount := (item :: sd.items).length,
            mainReviewer := some ⟨"gemini-cli-review", "COMMENTED"⟩,
            nextStep := some .newFeedbackReceived }
        (.ok
          { message := "Triggered local review and fetched online comments.",
            triggeredBots := ["/code-review"],
            initialStatus := sd2,
            nextStep := (sd2.nextStep).getD .analyzeFallback },
         tr ++ [.runReviewer, .fetchClassify])

/-- Online branch of `trigger_review`: local-state gate, the five marker
comments, then (for positive wait) the polling loop, whose timeout rewrites
`next_step` to the timeout instruction.  Comment-posting failures and user
interruption are outside this embedding. -/
def triggerOnlineMode (env : TriggerEnv) : Except TrigErr TrigOk × List Effect :=
  match checkLocalState env.token env.git with
  | (.error e, tr) => (.error (.localStateFailed e), tr)
  | (.ok _, tr) =>
    let posts := reviewCommands.map Effect.postComment
    if env.waitSeconds > 0 then
      let fetch := fun k => checkStatus (env.pollWorld k) env.now env.reviewer
      let pr := pollForMainReviewer fetch env.reviewer env.maxAttempts
      let sd :=
        match pr.1 with
        | .resolved s => s
        | .timedOut (some s) =>
          { s with pollingTimeout := true,
                   nextStep := some (.timeoutResponse env.reviewer) }
        | .timedOut none =>
          { statusTag := "error", pollingTimeout := true,
            nextStep := some (.timeoutResponse env.reviewer) }
      (.ok
        { message := "Triggered reviews and polled for main reviewer feedback.",
          triggeredBots := reviewCommands,
          initialStatus := sd,
          nextStep := (sd.nextStep).getD .postTriggerDefault },
       tr ++ posts ++ List.replicate pr.2 .fetchClassify)
    else
      (.ok
        { message := "Triggered reviews; polling was skipped.",
          triggeredBots := reviewCommands,
          initialStatus := skippedStatus,
          nextStep := .postTriggerDefault },
       tr ++ posts)

/-- Embedding of `ReviewManager.trigger_review` (source lines 491-741):
dispatch on the mode flags. -/
def triggerReview (mode : TriggerMode) (env : TriggerEnv) :
    Except TrigErr TrigOk × List Effect :=
  match mode with
  | .onlineMode => triggerOnlineMode env
  | .localMode => triggerLocalMode env
  | .offlineMode => triggerOffline env

theorem hasChangesRequested_iff (items : List FeedbackItem) :
    hasChangesRequested items = true ↔
      ∃ i ∈ items, i.type = "review_summary" ∧ i.state = some "CHANGES_REQUESTED" := by
  simp [hasChangesRequested, List.any_eq_true]

theorem hasChangesRequested_false_of_not (items : List FeedbackItem)
    (h : ¬ ∃ i ∈ items, i.type = "review_summary" ∧ i.state = some "CHANGES_REQUESTED") :
    hasChangesRequested items = false := by
  cases hx : hasChangesRequested items with
  | false => rfl
  | true => exact absurd ((hasChangesRequested_iff items).1 hx) h

/-- Sample data used by the concrete witnesses below. -/
def sampleApprovedReview : Review :=
  { user := "bot-x", state := "APPROVED", body := [], submittedAt := some 10 }

def sampleApprovedItem : FeedbackItem := reviewItem sampleApprovedReview

def sampleComment : FeedbackItem :=
  { type := "issue_comment", user := "bot-x", body := [],
    createdAt := some 20, updatedAt := some 20 }

def sampleCRItem : FeedbackItem :=
  { type := "review_summary", user := "other-bot", body := [],
    state := some "CHANGES_REQUESTED", createdAt := some 20 }

/-- C1: the single resulting instruction of the classifier follows the
fixed priority order: a CHANGES_REQUESTED review decision among the
time-filtered items forces the changes-requested instruction regardless of
anything else; otherwise detected post-approval comments force that
instruction; otherwise an APPROVED primary state with no other feedback is
the terminal stop instruction; otherwise an APPROVED state with other
feedback, or any feedback at all, is the address-feedback instruction; and
with nothing new the instruction is to keep waiting, never a terminal
stop. -/
theorem c1_priority_order (items : List FeedbackItem) (reviews : List Review)
    (reviewer : String) :
    ((∃ i ∈ items, i.type = "review_summary" ∧ i.state = some "CHANGES_REQUESTED") →
        classifyNext items reviews reviewer = .changesRequested)
  ∧ ((¬ ∃ i ∈ items, i.type = "review_summary" ∧ i.state = some "CHANGES_REQUESTED") →
      hasNewComments items reviewer (scanReviewer reviews reviewer).2 = true →
        classifyNext items reviews reviewer = .newCommentsAfterApproval reviewer)
  ∧ ((¬ ∃ i ∈ items, i.type = "review_summary" ∧ i.state = some "CHANGES_REQUESTED") →
      hasNewComments items reviewer (scanReviewer reviews reviewer).2 = false →
      (scanReviewer reviews reviewer).1 = "APPROVED" →
      otherFeedback items reviewer = [] →
        classifyNext items reviews reviewer = .validationComplete)
  ∧ ((¬ ∃ i ∈ items, i.type = "review_summary" ∧ i.state = some "CHANGES_REQUESTED") →
      hasNewComments items reviewer (scanReviewer reviews reviewer).2 = false →
      (((scanReviewer reviews reviewer).1 = "APPROVED" ∧ otherFeedback items reviewer ≠ [])
        ∨ ((scanReviewer reviews reviewer).1 ≠ "APPROVED" ∧ items ≠ [])) →
        classifyNext items reviews reviewer = .newFeedbackReceived)
  ∧ ((¬ ∃ i ∈ items, i.type = "review_summary" ∧ i.state = some "CHANGES_REQUESTED") →
      hasNewComments items reviewer (scanReviewer reviews reviewer).2 = false →
      (scanReviewer reviews reviewer).1 ≠ "APPROVED" →
      items = [] →
        classifyNext items reviews reviewer
          = .waitingForApproval reviewer (scanReviewer reviews reviewer).1
        ∧ classifyNext items reviews reviewer ≠ .validationComplete) := by
  refine ⟨?_, ?_, ?_, ?_, ?_⟩
  · intro h
    have hb : hasChangesRequested items = true := (hasChangesRequested_iff items).2 h
    simp [classifyNext, hb]
  · intro h hnew
    have hb := hasChangesRequested_false_of_not items h
    simp [classifyNext, hb, hnew]
  · intro h hnew hst hof
    have hb := hasChangesRequested_false_of_not items h
    simp [classifyNext, hb, hnew, hst, hof]
  · intro h hnew hcase
    have hb := hasChangesRequested_false_of_not items h
    rcases hcase with ⟨hst, hof⟩ | ⟨hst, hitems⟩
    · simp [classifyNext, hb, hnew, hst, hof]
    · simp [classifyNext, hb, hnew, hst, hitems]
  · intro h hnew hst hitems
    have hb := hasChangesRequested_false_of_not items h
    subst hitems
    constructor
    · simp [classifyNext, hb, hnew, hst]
    · simp [classifyNext, hb, hnew, hst]

/-- Concrete application of the C1 priority theorem: with a single
CHANGES_REQUESTED review decision among the items, the instruction is the
changes-requested one. -/
theorem c1_priority_order_witness :
    classifyNext [sampleCRItem] [] "bot-x" = .changesRequested :=
  (c1_priority_order [sampleCRItem] [] "bot-x").1
    ⟨sampleCRItem, by simp, by simp [sampleCRItem], by simp [sampleCRItem]⟩

/-- C2 counterexample: the primary reviewer bot-x approved at time 10 and
commented at time 20 within the window, so `new_comments_after_approval`
is true; yet with a CHANGES_REQUESTED review decision also among the
filtered items, the resulting instruction is the changes-requested one,
not the new-comments-after-approval one claimed unconditionally. -/
theorem c2_counterexample :
    (scanReviewer [sampleApprovedReview] "bot-x").2 = some 10
  ∧ sampleComment.user = "bot-x"
  ∧ sampleComment.type = "issue_comment"
  ∧ sampleComment.createdAt = some 20
  ∧ (10 : Int) ≤ 20
  ∧ hasNewComments [sampleComment, sampleCRItem] "bot-x"
      (scanReviewer [sampleApprovedReview] "bot-x").2 = true
  ∧ classifyNext [sampleComment, sampleCRItem] [sampleApprovedReview] "bot-x"
      ≠ .newCommentsAfterApproval "bot-x" := by
  refine ⟨by decide, by decide, by decide, by decide, by decide, by decide, ?_⟩
  decide

/-- C2 amended: when the reviewer scan yields a most-recent-approval time
T1 and a time-filtered item authored by the primary reviewer (an issue
comment, an inline comment, or a COMMENTED review decision) was created at
T2 at or after T1, the classifier sets `new_comments_after_approval`, the
resulting instruction is never the terminal approved/stop one, and unless
a CHANGES_REQUESTED decision is among the filtered items the instruction
is exactly the new-comments-after-approval one - even when the overall
latest state is still APPROVED. -/
theorem c2_new_comments_reopen (items : List FeedbackItem)
    (reviews : List Review) (reviewer : String) (t1 t2 : Int)
    (i : FeedbackItem)
    (happrove : (scanReviewer reviews reviewer).2 = some t1)
    (hmem : i ∈ items) (huser : i.user = reviewer)
    (hkind : i.type = "issue_comment" ∨ i.type = "inline_comment"
      ∨ (i.type = "review_summary" ∧ i.state = some "COMMENTED"))
    (hcreated : i.createdAt = some t2) (hle : t1 ≤ t2) :
    hasNewComments items reviewer (scanReviewer reviews reviewer).2 = true
  ∧ classifyNext items reviews reviewer ≠ .validationComplete
  ∧ (hasChangesRequested items = false →
      classifyNext items reviews reviewer = .newCommentsAfterApproval reviewer) := by
  have hitem : isPostApprovalComment reviewer t1 i = true := by
    rcases hkind with hk | hk | ⟨hk, hs⟩ <;>
      simp [isPostApprovalComment, huser, hcreated, hle, hk, *]
  have hnew : hasNewComments items reviewer (scanReviewer reviews reviewer).2 = true := by
    rw [happrove]
    simp only [hasNewComments, List.any_eq_true]
    exact ⟨i, hmem, hitem⟩
  refine ⟨hnew, ?_, ?_⟩
  · cases hcr : hasChangesRequested items with
    | true => simp [classifyNext, hcr]
    | false => simp [classifyNext, hcr, hnew]
  · intro hcr
    simp [classifyNext, hcr, hnew]

/-- Concrete application of the C2 amended theorem: approval at 10,
comment at 20, overall latest state still APPROVED, no changes-requested
item, so the instruction is the new-comments-after-approval one. -/
theorem c2_new_comments_reopen_witness :
    classifyNext [sampleApprovedItem, sampleComment] [sampleApprovedReview] "bot-x"
      = .newCommentsAfterApproval "bot-x" :=
  (c2_new_comments_reopen [sampleApprovedItem, sampleComment]
      [sampleApprovedReview] "bot-x" 10 20 sampleComment
      (by decide) (by decide) (by decide) (by decide) (by decide) (by decide)).2.2
    (by decide)

theorem pollGo_resolved_iff (fetch : Nat → StatusData) (reviewer : String) :
    ∀ (rem start : Nat) (last : Option StatusData),
      (∃ s, (pollGo fetch reviewer start rem last).1 = .resolved s) ↔
        ∃ k, start ≤ k ∧ k < start + rem
          ∧ mainReviewerHasNewFeedback (fetch k) reviewer = true := by
  intro rem
  induction rem with
  | zero =>
    intro start last
    simp [pollGo]
    omega
  | succ n ih =>
    intro start last
    by_cases hf : mainReviewerHasNewFeedback (fetch start) reviewer = true
    · simp only [pollGo, hf, if_pos]
      constructor
      · intro _
        exact ⟨start, le_refl start, by omega, hf⟩
      · intro _
        exact ⟨fetch start, rfl⟩
    · simp only [pollGo, hf, if_neg, Bool.not_eq_true]
      rw [ih (start + 1) (some (fetch start))]
      constructor
      · rintro ⟨k, hk1, hk2, hk3⟩
        exact ⟨k, by omega, by omega, hk3⟩
      · rintro ⟨k, hk1, hk2, hk3⟩
        have hks : k ≠ start := by
          intro he
          rw [he] at hk3
          exact hf hk3
        exact ⟨k, by omega, by omega, hk3⟩

/-- C3: the polling loop resolves if and only if, at some attempt within
the configured maximum, the freshly fetched time-filtered items (filtered
since the trigger time) contain one authored by the designated primary
reviewer; and resolution depends only on those per-attempt item lists,
never on the historical `main_reviewer` state carried alongside them. -/
theorem c3_poll_resolution (fetch altFetch : Nat → StatusData)
    (reviewer : String) (n : Nat) :
    ((∃ s, (pollForMainReviewer fetch reviewer n).1 = .resolved s) ↔
      ∃ k, 1 ≤ k ∧ k ≤ n
        ∧ (fetch k).items.any (fun i => i.user == reviewer) = true)
  ∧ ((∀ k, (altFetch k).items = (fetch k).items) →
      ((∃ s, (pollForMainReviewer altFetch reviewer n).1 = .resolved s) ↔
        ∃ s, (pollForMainReviewer fetch reviewer n).1 = .resolved s)) := by
  constructor
  · rw [pollForMainReviewer, pollGo_resolved_iff]
    constructor
    · rintro ⟨k, hk1, hk2, hk3⟩
      exact ⟨k, hk1, by omega, hk3⟩
    · rintro ⟨k, hk1, hk2, hk3⟩
      exact ⟨k, hk1, by omega, hk3⟩
  · intro hsame
    rw [pollForMainReviewer, pollForMainReviewer,
      pollGo_resolved_iff, pollGo_resolved_iff]
    constructor
    · rintro ⟨k, hk1, hk2, hk3⟩
      refine ⟨k, hk1, hk2, ?_⟩
      rw [mainReviewerHasNewFeedback] at hk3 ⊢
      rw [← hsame k]
      exact hk3
    · rintro ⟨k, hk1, hk2, hk3⟩
      refine ⟨k, hk1, hk2, ?_⟩
      rw [mainReviewerHasNewFeedback] at hk3 ⊢
      rw [hsame k]
      exact hk3

/-- A fetch oracle on which the primary reviewer bot-x has one new item at
every attempt. -/
def sampleFetchHit : Nat → StatusData := fun _ => { items := [sampleComment] }

/-- A fetch oracle on which the primary reviewer never produces a new
item but the historical state is APPROVED. -/
def sampleFetchMiss : Nat → StatusData := fun _ =>
  { items := [], mainReviewer := some ⟨"bot-x", "APPROVED"⟩ }

/-- Concrete application of the C3 theorem: with reviewer feedback present
at attempt 1 the loop resolves. -/
theorem c3_poll_resolution_witness :
    ∃ s, (pollForMainReviewer sampleFetchHit "bot-x" 3).1 = .resolved s :=
  (c3_poll_resolution sampleFetchHit sampleFetchHit "bot-x" 3).1.2
    ⟨1, by decide, by decide, by decide⟩

theorem pollGo_count_le (fetch : Nat → StatusData) (reviewer : String) :
    ∀ (rem start : Nat) (last : Option StatusData),
      (pollGo fetch reviewer start rem last).2 ≤ rem := by
  intro rem
  induction rem with
  | zero => intro start last; simp [pollGo]
  | succ n ih =>
    intro start last
    by_cases hf : mainReviewerHasNewFeedback (fetch start) reviewer = true
    · simp [pollGo, hf]
    · have := ih (start + 1) (some (fetch start))
      simp [pollGo, hf]
      omega

/-- C4 (modelled from the spec, the checkpoint machinery being absent from
the sources under src): resuming a checkpoint persisted with
`poll_attempt = k` against a configured maximum of N performs at most
N - k further poll attempts, and in particular strictly fewer than N, so
resuming never grants more total attempts than a fresh run. -/
theorem c4_resume_attempt_cap (fetch : Nat → StatusData) (reviewer : String)
    (cp : LoopCheckpoint) (n : Nat)
    (hk : 1 ≤ cp.pollAttempt) (hn : 1 ≤ n) :
    (resumePolling fetch reviewer cp n).2 ≤ n - cp.pollAttempt
  ∧ (resumePolling fetch reviewer cp n).2 < n := by
  have hle := pollGo_count_le fetch reviewer (n - cp.pollAttempt)
    (cp.pollAttempt + 1) none
  rw [resumePolling]
  omega

/-- Concrete application of the C4 theorem: a checkpoint at attempt 1 with
maximum 2 performs at most one further attempt, fewer than two. -/
theorem c4_resume_attempt_cap_witness :
    (resumePolling sampleFetchMiss "bot-x" ⟨1⟩ 2).2 ≤ 1
  ∧ (resumePolling sampleFetchMiss "bot-x" ⟨1⟩ 2).2 < 2 := by
  have h := c4_resume_attempt_cap sampleFetchMiss "bot-x" ⟨1⟩ 2
    (by decide) (by decide)
  exact h

/-- A review decision raw item whose update timestamp (10) is at or after
the window start (5) but whose submission timestamp (0) is before it. -/
def editedOldReview : RawGhItem :=
  { submittedAt := some 0, updatedAt := some 10, createdAt := some 0 }

/-- C5 counterexample: `pr_helper.filter_feedback_since` keys review
decisions on `submitted_at`, not on the update timestamp, so a review
decision updated at 10 with `since = 5` is dropped even though its update
timestamp is at or after `since`; the claim that all three categories are
filtered on the update timestamp fails here. -/
theorem c5_counterexample :
    editedOldReview.updatedAt = some 10
  ∧ (5 : Int) ≤ 10
  ∧ filterFeedbackSince ⟨[editedOldReview], [], []⟩ 5 = [] := by
  refine ⟨by decide, by decide, by decide⟩

/-- C5 amended: in `check_status`, general comments (via the platform
`since` parameter) and inline comments are kept exactly when their update
timestamp exists and is at or after `since`, while formal review decisions
are kept exactly when their submission (creation) timestamp exists and is
at or after `since`; in `pr_helper.filter_feedback_since` an item is kept
exactly when its first-available timestamp key (`submitted_at`, else
`updated_at`, else `created_at`) is strictly after `since`. -/
theorem c5_filter_timestamps :
    (∀ (since : Int) (c : RawIssueComment),
      fetchItems ⟨[c], [], []⟩ since ≠ [] ↔ ∃ u, c.updatedAt = some u ∧ since ≤ u)
  ∧ (∀ (since : Int) (c : RawInlineComment),
      fetchItems ⟨[], [c], []⟩ since ≠ [] ↔ ∃ u, c.updatedAt = some u ∧ since ≤ u)
  ∧ (∀ (since : Int) (r : Review),
      fetchItems ⟨[], [], [r]⟩ since ≠ [] ↔ ∃ t, r.submittedAt = some t ∧ since ≤ t)
  ∧ (∀ (since : Int) (i : RawGhItem),
      filterFeedbackSince ⟨[i], [], []⟩ since ≠ [] ↔ ∃ t, tsKey i = some t ∧ since < t) := by
  refine ⟨?_, ?_, ?_, ?_⟩
  · intro since c
    cases hu : c.updatedAt with
    | none => simp [fetchItems, keepIssueComment, hu]
    | some u => simp [fetchItems, keepIssueComment, hu]
  · intro since c
    cases hu : c.updatedAt with
    | none => simp [fetchItems, keepInlineComment, hu]
    | some u => simp [fetchItems, keepInlineComment, hu]
  · intro since r
    cases hu : r.submittedAt with
    | none => simp [fetchItems, keepReview, hu]
    | some t => simp [fetchItems, keepReview, hu]
  · intro since i
    cases hu : tsKey i with
    | none => simp [filterFeedbackSince, keepHelperItem, hu]
    | some t => simp [filterFeedbackSince, keepHelperItem, hu]

/-- An inline comment created at 0 and updated at 10. -/
def editedInlineComment : RawInlineComment :=
  { user := "bot-x", body := [], path := none, line := none,
    createdAt := some 0, updatedAt := some 10 }

/-- Concrete application of the C5 amended theorem: an inline comment
updated at time 10 is kept for a window starting at 5. -/
theorem c5_filter_timestamps_witness :
    fetchItems ⟨[], [editedInlineComment], []⟩ 5 ≠ [] :=
  (c5_filter_timestamps.2.1 5 editedInlineComment).2 ⟨10, rfl, by decide⟩

theorem verifyCleanGit_ok_iff (token : List Char) (env : GitEnv) (br : List Char) :
    verifyCleanGit token env = .ok br ↔
      ∃ out bout, env.statusRun = .ok out ∧ pyStrip out = []
        ∧ env.branchRun = .ok bout ∧ pyStrip bout ≠ "HEAD".toList
        ∧ br = pyStrip bout := by
  unfold verifyCleanGit
  cases hs : env.statusRun with
  | exc m => simp
  | timedOut m => simp
  | ok out =>
    by_cases hd : pyStrip out = []
    · simp only [hd]
      simp
      cases hb : env.branchRun with
      | exc m => simp
      | timedOut m => simp
      | ok bout =>
        simp only []
        split_ifs with hh <;> simp [hh, hd, eq_comm]
    · simp [hd]

theorem checkUpstreamSync_ok_iff (token : List Char) (env : GitEnv) (msg : List Char) :
    checkUpstreamSync token env = .ok msg ↔
      msg = "Code is clean and pushed.".toList
      ∧ (∃ fo, env.fetchRun = .ok fo)
      ∧ (∃ b2, env.branchRun2 = .ok b2)
      ∧ (∃ so se, env.upstreamRun = .done 0 so se)
      ∧ (∃ outR errR p0 p1 behind ahead,
          env.revListRun = .done 0 outR errR
          ∧ pySplit outR = [p0, p1]
          ∧ pyInt p0 = some behind ∧ pyInt p1 = some ahead
          ∧ ¬ ahead > 0 ∧ ¬ behind > 0) := by
  unfold checkUpstreamSync
  cases hf : env.fetchRun with
  | exc m => simp
  | timedOut m => simp
  | ok fo =>
    cases hb : env.branchRun2 with
    | exc m => simp
    | timedOut m => simp
    | ok b2 =>
      cases hu : env.upstreamRun with
      | timedOut m => simp
      | done rcU so se =>
        by_cases hrc : rcU = 0
        · subst hrc
          simp only [ne_eq, not_true_eq_false, if_false, ite_false]
          cases hr : env.revListRun with
          | timedOut m => simp
          | done rcR outR errR =>
            by_cases hrr : rcR = 0
            · subst hrr
              simp only [if_pos rfl]
              cases hps : pySplit outR with
              | nil => simp [hps]
              | cons p0 rest =>
                cases rest with
                | nil => simp [hps]
                | cons p1 rest2 =>
                  cases rest2 with
                  | cons q qs => simp [hps]
                  | nil =>
                    cases hpi0 : pyInt p0 with
                    | none => simp [hps, hpi0]
                    | some behind =>
                      cases hpi1 : pyInt p1 with
                      | none => simp [hps, hpi0, hpi1]
                      | some ahead =>
                        by_cases ha : (0 : Int) < ahead
                        · simp [hps, hpi0, hpi1, ha]
                        · by_cases hbd : (0 : Int) < behind
                          · simp [hps, hpi0, hpi1, ha, hbd]
                          · simp [hps, hpi0, hpi1, ha, hbd, eq_comm]
                            exact fun _ =>
                              ⟨p0, p1, ⟨rfl, rfl⟩, behind, hpi0, ahead, hpi1,
                               by omega, by omega⟩
            · simp [hrr]
        · simp [hrc, Ne.symm hrc]

/-- C6: the sync verification applies its checks in order - uncommitted
modifications, detached head, missing upstream, then divergence after the
remote fetch - each failing with its own distinct error; it fails with the
unpushed error when ahead is positive and the behind error when behind is
positive, and returns success only when the tree is clean, HEAD is a named
branch, an upstream is configured, and the parsed ahead/behind divergence
is not positive on either side (hence exactly zero for the nonnegative
counts git produces). -/
theorem c6_sync_check_order (token : List Char) (env : GitEnv) :
    (∀ out, env.statusRun = .ok out → pyStrip out ≠ [] →
      checkLocalState token env = (.error .dirtyWorkingTree, [.syncCheck]))
  ∧ (∀ out bout, env.statusRun = .ok out → pyStrip out = [] →
      env.branchRun = .ok bout → pyStrip bout = "HEAD".toList →
      checkLocalState token env = (.error .detachedHead, [.syncCheck]))
  ∧ (∀ br fo b2 rcU so se, verifyCleanGit token env = .ok br →
      env.fetchRun = .ok fo → env.branchRun2 = .ok b2 →
      env.upstreamRun = .done rcU so se → rcU ≠ 0 →
      checkLocalState token env
        = (.error (.noUpstream (pyStrip b2)), [.syncCheck, .gitFetch]))
  ∧ (∀ br fo b2 so se outR errR p0 p1 behind ahead,
      verifyCleanGit token env = .ok br →
      env.fetchRun = .ok fo → env.branchRun2 = .ok b2 →
      env.upstreamRun = .done 0 so se →
      env.revListRun = .done 0 outR errR →
      pySplit outR = [p0, p1] →
      pyInt p0 = some behind → pyInt p1 = some ahead → ahead > 0 →
      checkLocalState token env
        = (.error (.unpushedCommits (pyStrip b2) ahead), [.syncCheck, .gitFetch]))
  ∧ (∀ br fo b2 so se outR errR p0 p1 behind ahead,
      verifyCleanGit token env = .ok br →
      env.fetchRun = .ok fo → env.branchRun2 = .ok b2 →
      env.upstreamRun = .done 0 so se →
      env.revListRun = .done 0 outR errR →
      pySplit outR = [p0, p1] →
      pyInt p0 = some behind → pyInt p1 = some ahead →
      ¬ ahead > 0 → behind > 0 →
      checkLocalState token env
        = (.error (.behindUpstream (pyStrip b2) behind), [.syncCheck, .gitFetch]))
  ∧ (∀ msg, (checkLocalState token env).1 = .ok msg →
      (∃ out, env.statusRun = .ok out ∧ pyStrip out = [])
      ∧ (∃ bout, env.branchRun = .ok bout ∧ pyStrip bout ≠ "HEAD".toList)
      ∧ (∃ fo, env.fetchRun = .ok fo)
      ∧ (∃ b2, env.branchRun2 = .ok b2)
      ∧ (∃ so se, env.upstreamRun = .done 0 so se)
      ∧ (∃ outR errR p0 p1 behind ahead,
          env.revListRun = .done 0 outR errR ∧ pySplit outR = [p0, p1]
          ∧ pyInt p0 = some behind ∧ pyInt p1 = some ahead
          ∧ ¬ ahead > 0 ∧ ¬ behind > 0
          ∧ (0 ≤ ahead → 0 ≤ behind → ahead = 0 ∧ behind = 0))) := by
  refine ⟨?_, ?_, ?_, ?_, ?_, ?_⟩
  · intro out hs hd
    simp [checkLocalState, verifyCleanGit, hs, hd]
  · intro out bout hs hd hb hh
    simp [checkLocalState, verifyCleanGit, hs, hd, hb, hh]
  · intro br fo b2 rcU so se hv hf hb2 hu hrc
    simp [checkLocalState, hv, checkUpstreamSync, hf, hb2, hu, hrc]
  · intro br fo b2 so se outR errR p0 p1 behind ahead hv hf hb2 hu hr hps hpi0 hpi1 ha
    simp [checkLocalState, hv, checkUpstreamSync, hf, hb2, hu, hr, hps, hpi0, hpi1, ha]
  · intro br fo b2 so se outR errR p0 p1 behind ahead hv hf hb2 hu hr hps hpi0 hpi1 ha hbd
    simp [checkLocalState, hv, checkUpstreamSync, hf, hb2, hu, hr, hps, hpi0, hpi1, ha, hbd]
  · intro msg h
    cases hv : verifyCleanGit token env with
    | error e => simp [checkLocalState, hv] at h
    | ok br =>
      simp [checkLocalState, hv] at h
      obtain ⟨out, bout, hs, hd, hb, hh, _⟩ := (verifyCleanGit_ok_iff token env br).1 hv
      obtain ⟨_, hfo, hb2, hup, outR, errR, p0, p1, behind, ahead,
        hr, hps, hpi0, hpi1, ha, hbd⟩ := (checkUpstreamSync_ok_iff token env msg).1 h
      exact ⟨⟨out, hs, hd⟩, ⟨bout, hb, hh⟩, hfo, hb2, hup,
        outR, errR, p0, p1, behind, ahead, hr, hps, hpi0, hpi1, ha, hbd,
        fun h1 h2 => by omega⟩

/-- A git world in which everything is clean and synchronized. -/
def cleanGitEnv : GitEnv :=
  { statusRun := .ok [],
    branchRun := .ok "main".toList,
    fetchRun := .ok [],
    branchRun2 := .ok "main".toList,
    upstreamRun := .done 0 [] [],
    revListRun := .done 0 "0 0".toList [],
    pushRun := .ok [] }

/-- Concrete application of the C6 theorem: in the clean synchronized
world the verification succeeds, so all the stated conditions hold of it. -/
theorem c6_sync_check_order_witness :
    (∃ out, cleanGitEnv.statusRun = .ok out ∧ pyStrip out = [])
  ∧ (∃ bout, cleanGitEnv.branchRun = .ok bout ∧ pyStrip bout ≠ "HEAD".toList)
  ∧ (∃ fo, cleanGitEnv.fetchRun = .ok fo)
  ∧ (∃ b2, cleanGitEnv.branchRun2 = .ok b2)
  ∧ (∃ so se, cleanGitEnv.upstreamRun = .done 0 so se)
  ∧ (∃ outR errR p0 p1 behind ahead,
      cleanGitEnv.revListRun = .done 0 outR errR ∧ pySplit outR = [p0, p1]
      ∧ pyInt p0 = some behind ∧ pyInt p1 = some ahead
      ∧ ¬ ahead > 0 ∧ ¬ behind > 0
      ∧ (0 ≤ ahead → 0 ≤ behind → ahead = 0 ∧ behind = 0)) :=
  (c6_sync_check_order [] cleanGitEnv).2.2.2.2.2
    "Code is clean and pushed.".toList (by rfl)

theorem maskToken_nil (t : List Char) : maskToken t [] = [] := by
  rw [maskToken]

theorem maskChars_mem (x : Char) (h : x ∈ maskChars) : x = '*' :=
  List.eq_of_mem_replicate h

theorem maskToken_not_prefix (t : List Char) (ht : t ≠ []) (hstar : '*' ∉ t) :
    ∀ (s u : List Char), u ≠ [] → '*' ∉ u → ¬ u <+: s → ¬ u <+: maskToken t s := by
  intro s
  induction s with
  | nil =>
    intro u hu _ _
    rw [maskToken_nil]
    rw [List.prefix_nil]
    exact hu
  | cons c s' ih =>
    intro u hu hstaru hnp
    by_cases hpre : t ≠ [] ∧ t.isPrefixOf (c :: s')
    · rw [maskToken, dif_pos hpre]
      intro hp
      match u, hu with
      | d :: u', _ =>
        have hd : d = '*' := by
          have : (maskChars ++ maskToken t (s'.drop (t.length - 1)))
              = '*' :: (List.replicate 7 '*' ++ maskToken t (s'.drop (t.length - 1))) := by
            rw [maskChars]
            rfl
          rw [this] at hp
          exact (List.cons_prefix_cons.1 hp).1
        exact hstaru (by rw [hd]; exact List.mem_cons_self '*' u')
    · rw [maskToken, dif_neg hpre]
      intro hp
      match u, hu with
      | d :: u', _ =>
        obtain ⟨hd, hp'⟩ := List.cons_prefix_cons.1 hp
        by_cases hu' : u' = []
        · subst hu' hd
          exact hnp (List.cons_prefix_cons.2 ⟨rfl, List.nil_prefix⟩)
        · have hnps : ¬ u' <+: s' := by
            intro hq
            exact hnp (by rw [hd]; exact List.cons_prefix_cons.2 ⟨rfl, hq⟩)
          exact ih u' hu' (fun hx => hstaru (List.mem_cons_of_mem d hx)) hnps hp'

theorem infix_of_infix_star_append (t : List Char) (ht : t ≠ []) (hstar : '*' ∉ t) :
    ∀ (X Y : List Char), (∀ x ∈ X, x = '*') → t <:+: X ++ Y → t <:+: Y := by
  intro X
  induction X with
  | nil => intro Y _ h; simpa using h
  | cons x X' ih =>
    intro Y hall hinf
    rw [List.cons_append] at hinf
    rcases List.infix_cons_iff.1 hinf with hp | hs
    · exfalso
      match t, ht with
      | d :: t', _ =>
        obtain ⟨hd, _⟩ := List.cons_prefix_cons.1 hp
        have hx : x = '*' := hall x (List.mem_cons_self x X')
        exact hstar (by rw [← hx, ← hd]; exact List.mem_cons_self d t')
    · exact ih Y (fun z hz => hall z (List.mem_cons_of_mem x hz)) hs

theorem maskToken_no_occurrence_aux (t : List Char) (ht : t ≠ []) (hstar : '*' ∉ t) :
    ∀ n, ∀ s : List Char, s.length ≤ n → ¬ t <:+: maskToken t s := by
  intro n
  induction n with
  | zero =>
    intro s hs
    have hnil : s = [] := List.length_eq_zero.1 (Nat.le_zero.1 hs)
    subst hnil
    rw [maskToken_nil, List.infix_nil]
    exact ht
  | succ n ih =>
    intro s hs
    match s with
    | [] =>
      rw [maskToken_nil, List.infix_nil]
      exact ht
    | c :: s' =>
      by_cases hpre : t ≠ [] ∧ t.isPrefixOf (c :: s')
      · rw [maskToken, dif_pos hpre]
        intro hinf
        have h2 : t <:+: maskToken t (s'.drop (t.length - 1)) :=
          infix_of_infix_star_append t ht hstar maskChars _ maskChars_mem hinf
        have hlen : (s'.drop (t.length - 1)).length ≤ n := by
          simp only [List.length_drop]
          simp at hs
          omega
        exact ih (s'.drop (t.length - 1)) hlen h2
      · rw [maskToken, dif_neg hpre]
        intro hinf
        rcases List.infix_cons_iff.1 hinf with hp | hs2
        · have hnp : ¬ t <+: (c :: s') := by
            intro hcp
            exact hpre ⟨ht, List.isPrefixOf_iff_prefix.2 hcp⟩
          have := maskToken_not_prefix t ht hstar (c :: s') t ht hstar hnp
          rw [maskToken, dif_neg hpre] at this
          exact this hp
        · have hlen : s'.length ≤ n := by
            simp at hs
            omega
          exact ih s' hlen hs2

theorem maskToken_not_infix (t s : List Char) (ht : t ≠ []) (hstar : '*' ∉ t) :
    ¬ t <:+: maskToken t s :=
  maskToken_no_occurrence_aux t ht hstar s.length s le_rfl

theorem verifyCleanGit_gitCheckFailed (token : List Char) (env : GitEnv)
    (m : List Char)
    (h : verifyCleanGit token env = .error (.gitCheckFailed m)) :
    ∃ raw, m = maskToken token raw := by
  unfold verifyCleanGit at h
  repeat' split at h
  all_goals simp at h
  all_goals try split_ifs at h
  all_goals try simp_all
  all_goals exact ⟨_, h.symm⟩

theorem checkUpstreamSync_gitCheckFailed (token : List Char) (env : GitEnv)
    (m : List Char)
    (h : checkUpstreamSync token env = .error (.gitCheckFailed m)) :
    ∃ raw, m = maskToken token raw := by
  unfold checkUpstreamSync at h
  repeat' split at h
  all_goals simp at h
  all_goals try split_ifs at h
  all_goals try simp_all
  all_goals exact ⟨_, h.symm⟩

/-- C8 amended: every sync-verification failure surfaced from a caught
subprocess exception (the `Git check failed` messages of both
`_verify_clean_git` and `_check_local_state`) carries a message with every
occurrence of the secret token replaced, so the token never appears in it
(for a nonempty token not made of the mask character); the nonzero-exit
divergence branch, by contrast, surfaces raw stderr without redaction
(see the counterexample). -/
theorem c8_exception_messages_redacted (token : List Char) (env : GitEnv)
    (ht : token ≠ []) (hstar : '*' ∉ token) :
    (∀ m, (checkLocalState token env).1 = .error (.gitCheckFailed m) →
      ¬ token <:+: m)
  ∧ (∀ m, verifyCleanGit token env = .error (.gitCheckFailed m) →
      ¬ token <:+: m) := by
  have hver : ∀ m, verifyCleanGit token env = .error (.gitCheckFailed m) →
      ¬ token <:+: m := by
    intro m h
    obtain ⟨raw, hm⟩ := verifyCleanGit_gitCheckFailed token env m h
    rw [hm]
    exact maskToken_not_infix token raw ht hstar
  refine ⟨?_, hver⟩
  intro m h
  cases hv : verifyCleanGit token env with
  | error e =>
    simp [checkLocalState, hv] at h
    subst h
    exact hver m hv
  | ok br =>
    simp [checkLocalState, hv] at h
    obtain ⟨raw, hm⟩ := checkUpstreamSync_gitCheckFailed token env m h
    rw [hm]
    exact maskToken_not_infix token raw ht hstar

def secretToken : List Char := "ghp-secret".toList

def leakEnv : GitEnv :=
  { statusRun := .ok [],
    branchRun := .ok "main".toList,
    fetchRun := .ok [],
    branchRun2 := .ok "main".toList,
    upstreamRun := .done 0 [] [],
    revListRun := .done 128 [] ("fatal: ".toList ++ secretToken ++ " leaked".toList),
    pushRun := .ok [] }

/-- C8 counterexample: when `git rev-list` exits nonzero with the secret
token embedded in its stderr, `_check_local_state` surfaces the
divergence-check failure message containing that stderr verbatim - the
token appears unredacted in the surfaced message, refuting the claim that
every subprocess failure is redacted. -/
theorem c8_counterexample :
    (checkLocalState secretToken leakEnv).1
      = .error (.divergenceCheckFailed ("fatal: ghp-secret leaked".toList))
  ∧ secretToken <:+: "fatal: ghp-secret leaked".toList := by
  constructor
  · rfl
  · exact ⟨"fatal: ".toList, " leaked".toList, by rfl⟩

def excEnv : GitEnv :=
  { statusRun := .ok [],
    branchRun := .ok "main".toList,
    fetchRun := .exc ("boom ".toList ++ secretToken),
    branchRun2 := .ok "main".toList,
    upstreamRun := .done 0 [] [],
    revListRun := .done 0 "0 0".toList [],
    pushRun := .ok [] }

/-- Concrete application of the C8 amended theorem: a fetch failure whose
exception text embeds the token is surfaced without any occurrence of the
token. -/
theorem c8_exception_messages_redacted_witness :
    ¬ secretToken <:+: maskToken secretToken ("boom ".toList ++ secretToken) :=
  (c8_exception_messages_redacted secretToken excEnv (by decide) (by decide)).1
    (maskToken secretToken ("boom ".toList ++ secretToken)) (by rfl)

/-- The empty platform state. -/
def emptyWorld : StatusInput := ⟨[], [], []⟩

/-- A git world that is clean except for uncommitted modifications. -/
def dirtyGitEnv : GitEnv :=
  { cleanGitEnv with statusRun := .ok "M file".toList }

/-- A trigger environment over the dirty git world. -/
def dirtyTriggerEnv : TriggerEnv :=
  { git := dirtyGitEnv, token := [], reviewerRun := .completed 0 [] [],
    now := 0, reviewer := "bot-x", localStatus := .ok emptyWorld,
    pollWorld := fun _ => emptyWorld, maxAttempts := 1, waitSeconds := 180 }

/-- C7: with uncommitted modifications in the working tree, `safe_push`
and the online trigger both fail at the first, purely local check: no
push runs, no network fetch runs, and no trigger comment is ever posted. -/
theorem c7_dirty_blocks_network (env : TriggerEnv) (out : List Char)
    (hs : env.git.statusRun = .ok out) (hd : pyStrip out ≠ []) :
    safePush env.token env.git
      = (.error (.notClean .dirtyWorkingTree), [.syncCheck])
  ∧ triggerReview .onlineMode env
      = (.error (.localStateFailed .dirtyWorkingTree), [.syncCheck])
  ∧ Effect.gitPush ∉ (safePush env.token env.git).2
  ∧ Effect.gitFetch ∉ (safePush env.token env.git).2
  ∧ (∀ b, Effect.postComment b ∉ (safePush env.token env.git).2)
  ∧ Effect.gitPush ∉ (triggerReview .onlineMode env).2
  ∧ Effect.gitFetch ∉ (triggerReview .onlineMode env).2
  ∧ (∀ b, Effect.postComment b ∉ (triggerReview .onlineMode env).2) := by
  have h1 : safePush env.token env.git
      = (.error (.notClean .dirtyWorkingTree), [.syncCheck]) := by
    simp [safePush, verifyCleanGit, hs, hd]
  have h2 : triggerReview .onlineMode env
      = (.error (.localStateFailed .dirtyWorkingTree), [.syncCheck]) := by
    simp [triggerReview, triggerOnlineMode, checkLocalState, verifyCleanGit, hs, hd]
  refine ⟨h1, h2, ?_, ?_, ?_, ?_, ?_, ?_⟩ <;> first
    | (rw [h1]; simp)
    | (rw [h2]; simp)
    | (intro b; rw [h1]; simp)
    | (intro b; rw [h2]; simp)

/-- Concrete application of the C7 theorem at the dirty trigger
environment. -/
theorem c7_dirty_blocks_network_witness :
    safePush dirtyTriggerEnv.token dirtyTriggerEnv.git
      = (.error (.notClean .dirtyWorkingTree), [.syncCheck])
  ∧ triggerReview .onlineMode dirtyTriggerEnv
      = (.error (.localStateFailed .dirtyWorkingTree), [.syncCheck]) :=
  ⟨(c7_dirty_blocks_network dirtyTriggerEnv "M file".toList (by rfl) (by decide)).1,
   (c7_dirty_blocks_network dirtyTriggerEnv "M file".toList (by rfl) (by decide)).2.1⟩

/-- C9: an offline trigger with a successful bounded review-agent run
performs no sync verification, posts nothing, and never fetches or
classifies against the platform; its complete result is the single
synthetic item of type `offline_review` authored by the fixed identity
`gemini-cli-review`, with the control-stripped captured output as body and
the main reviewer reported in state COMMENTED. -/
theorem c9_offline_isolated (env : TriggerEnv) (out errOut : List Char)
    (hrun : env.reviewerRun = .completed 0 out errOut) :
    triggerReview .offlineMode env =
      (.ok { message := "Offline review completed locally.",
             triggeredBots := ["/code-review"],
             initialStatus :=
               { statusTag := "success",
                 items := [mkLocalReviewItem false out env.now],
                 newItemCount := 1,
                 mainReviewer := some ⟨"gemini-cli-review", "COMMENTED"⟩,
                 nextStep := none },
             nextStep := .offlineAnalyze },
       [.runReviewer])
  ∧ (mkLocalReviewItem false out env.now).type = "offline_review"
  ∧ (mkLocalReviewItem false out env.now).user = "gemini-cli-review"
  ∧ (mkLocalReviewItem false out env.now).body = stripAnsi out
  ∧ Effect.syncCheck ∉ (triggerReview .offlineMode env).2
  ∧ Effect.gitFetch ∉ (triggerReview .offlineMode env).2
  ∧ Effect.fetchClassify ∉ (triggerReview .offlineMode env).2
  ∧ Effect.gitPush ∉ (triggerReview .offlineMode env).2
  ∧ (∀ b, Effect.postComment b ∉ (triggerReview .offlineMode env).2) := by
  have h1 : triggerReview .offlineMode env =
      (.ok { message := "Offline review completed locally.",
             triggeredBots := ["/code-review"],
             initialStatus :=
               { statusTag := "success",
                 items := [mkLocalReviewItem false out env.now],
                 newItemCount := 1,
                 mainReviewer := some ⟨"gemini-cli-review", "COMMENTED"⟩,
                 nextStep := none },
             nextStep := .offlineAnalyze },
       [.runReviewer]) := by
    simp [triggerReview, triggerOffline, hrun]
  refine ⟨h1, rfl, rfl, rfl, ?_, ?_, ?_, ?_, ?_⟩ <;> rw [h1] <;> simp

/-- A CHANGES_REQUESTED review decision by another bot at time 5. -/
def crReview : Review :=
  { user := "other-bot", state := "CHANGES_REQUESTED", body := [],
    submittedAt := some 5 }

/-- A trigger environment over the clean git world whose online
classification would report changes requested. -/
def crTriggerEnv : TriggerEnv :=
  { git := cleanGitEnv, token := [],
    reviewerRun := .completed 0 "agent says hello".toList [],
    now := 0, reviewer := "bot-x",
    localStatus := .ok ⟨[], [], [crReview]⟩,
    pollWorld := fun _ => emptyWorld, maxAttempts := 1, waitSeconds := 180 }

/-- Concrete application of the C9 theorem at a concrete offline
environment. -/
theorem c9_offline_isolated_witness :
    triggerReview .offlineMode crTriggerEnv =
      (.ok { message := "Offline review completed locally.",
             triggeredBots := ["/code-review"],
             initialStatus :=
               { statusTag := "success",
                 items := [mkLocalReviewItem false "agent says hello".toList crTriggerEnv.now],
                 newItemCount := 1,
                 mainReviewer := some ⟨"gemini-cli-review", "COMMENTED"⟩,
                 nextStep := none },
             nextStep := .offlineAnalyze },
       [.runReviewer]) :=
  (c9_offline_isolated crTriggerEnv "agent says hello".toList [] (by rfl)).1

/-- C10: in local mode with a successful local reviewer run (and a passing
sync gate), the returned result always reports the synthetic identity
`gemini-cli-review` in state COMMENTED as main reviewer and the generic
new-feedback instruction as next step, whatever the online fetch/classify
cycle computed - including when it found a CHANGES_REQUESTED decision or
the primary reviewer approval. -/
theorem c10_local_override (env : TriggerEnv) (out errOut msg : List Char)
    (tr : List Effect)
    (hrun : env.reviewerRun = .completed 0 out errOut)
    (hok : checkLocalState env.token env.git = (.ok msg, tr)) :
    ∃ r trace, triggerReview .localMode env = (.ok r, trace)
      ∧ r.initialStatus.mainReviewer = some ⟨"gemini-cli-review", "COMMENTED"⟩
      ∧ r.initialStatus.nextStep = some .newFeedbackReceived
      ∧ r.nextStep = .newFeedbackReceived := by
  have h1 : triggerReview .localMode env =
      (.ok { message := "Triggered local review and fetched online comments.",
             triggeredBots := ["/code-review"],
             initialStatus :=
               { localFetchStatus env with
                 items := mkLocalReviewItem true out env.now
                   :: (localFetchStatus env).items,
                 newItemCount := (mkLocalReviewItem true out env.now
                   :: (localFetchStatus env).items).length,
                 mainReviewer := some ⟨"gemini-cli-review", "COMMENTED"⟩,
                 nextStep := some .newFeedbackReceived },
             nextStep := .newFeedbackReceived },
       tr ++ [.runReviewer, .fetchClassify]) := by
    simp [triggerReview, triggerLocalMode, hok, hrun]
  exact ⟨_, _, h1, rfl, rfl, rfl⟩

/-- Concrete application of the C10 theorem: the online world reports a
CHANGES_REQUESTED decision, yet the local-mode result reports the
synthetic reviewer and the generic new-feedback instruction. -/
theorem c10_local_override_witness :
    ∃ r trace, triggerReview .localMode crTriggerEnv = (.ok r, trace)
      ∧ r.initialStatus.mainReviewer = some ⟨"gemini-cli-review", "COMMENTED"⟩
      ∧ r.initialStatus.nextStep = some .newFeedbackReceived
      ∧ r.nextStep = .newFeedbackReceived :=
  c10_local_override crTriggerEnv "agent says hello".toList [] 
    "Code is clean and pushed.".toList [.syncCheck, .gitFetch] (by rfl) (by rfl)
